import Mathlib

/-!
Shallow embedding of `src/Scraper/scraper.py` (LiorAbergel/Scripts).

Pure fragments of the Python code become Lean functions; Python exceptions
become `Except PyExn`; Python `None` becomes `Option.none` or a dedicated
constructor; the network and the HTML parser are abstracted as explicit
inputs (a fetch outcome, lists of pre-extracted element fields), while all
control flow and field logic is translated line by line from the source.
-/

namespace Scraper

/-- Calendar dates (`datetime.date`), compared lexicographically. -/
structure Date where
  year : Nat
  month : Nat
  day : Nat
deriving DecidableEq

/-- Python `minDate <= articleDate` on `datetime.date` values:
lexicographic comparison of (year, month, day). -/
def dateLe (a b : Date) : Bool :=
  (a.year < b.year) ||
    (a.year == b.year &&
      ((a.month < b.month) || (a.month == b.month && a.day ≤ b.day)))

/-- The dynamic type of the `date` argument flowing into
`BaseScraper.is_article_valid`: a `datetime.date`, a raw string such as
the `parse_date` failure marker "No Date", or Python `None`. -/
inductive DateVal where
  | str (s : String)
  | date (d : Date)
  | pynone
deriving DecidableEq

/-- Python values stored in `Article.tags` across the scrapers: `None`,
a plain string (e.g. Dragos), or a list of strings (e.g. CISA). -/
inductive Tags where
  | pynone
  | ofString (s : String)
  | ofList (l : List String)
deriving DecidableEq

/-- The `Article` record (scraper.py lines 32-50). -/
structure Article where
  title : String
  url : String
  date : DateVal
  tags : Tags
  source : String
  description : Option String
  image : Option String
  content : Option String
deriving DecidableEq

/-- `Article.__eq__` (line 43-44): equality is `isinstance` plus equal
`title` and equal `url`.  In this typed embedding every value is an
`Article`, so the `isinstance` test is always true. -/
def articleEq (a other : Article) : Bool :=
  a.title == other.title && a.url == other.url

/-- Deterministic stand-in for Python's (per-process salted) string hash.
Only the functional dependency matters: it is a function of the string. -/
def pyHashStr (s : String) : Nat :=
  s.data.foldl (fun h c => (h * 31 + c.toNat) % 2 ^ 64) 7

/-- `Article.__hash__` (line 46-47): `hash((self.title, self.url))`,
a function of the pair (title, url) only. -/
def article_hash (a : Article) : Nat :=
  (pyHashStr a.title * 1000003 + pyHashStr a.url) % 2 ^ 64

/-- Python `set` of Articles, modelled as an insertion-ordered list with
no two members equal under `Article.__eq__` (`set.add` semantics: a new
element is kept only if no existing member compares equal). -/
def pySetAdd (s : List Article) (a : Article) : List Article :=
  if s.any (fun b => articleEq b a) then s else s ++ [a]

/-- `set.update`: add every element of the iterable in order. -/
def pySetUpdate (s : List Article) (l : List Article) : List Article :=
  l.foldl pySetAdd s

/-- Python exceptions relevant to the embedded fragments. -/
inductive PyExn where
  | valueError
  | typeError
  | attributeError
  | requestException (msg : String)
deriving DecidableEq

deriving instance DecidableEq for Except

/-- Outcome of one HTTP round trip attempted by `requests.get` /
`cloudscraper`: either a response (status code and body) or a transport
error, which those libraries surface by raising. -/
inductive FetchOutcome where
  | response (status : Nat) (text : String)
  | transportError (msg : String)
deriving DecidableEq

/-- `BaseScraper.fetch_page_content` (lines 68-81).  The chosen client
(`use_cloudscraper`) does not change the logic; `outcome` is what that
client's `get` call produced.  A transport error is raised by `get`
itself: the function has no try/except, so it propagates. -/
def fetch_page_content (useCloudscraper : Bool) (outcome : FetchOutcome) :
    Except PyExn (Option String) :=
  match useCloudscraper, outcome with
  | _, .transportError m => .error (.requestException m)
  | _, .response status text =>
    if status == 200 then .ok (some text) else .ok none

/-- Python truthiness of an `Option String` (`if not page_content`):
`None` and the empty string are falsy. -/
def strTruthy (o : Option String) : Bool :=
  match o with
  | none => false
  | some s => s ≠ ""

/-- `BaseScraper.is_article_valid` (lines 155-157):
`isinstance(article_date, str) or (article_date and article_date >= self.min_date)`,
read as the truthiness of the returned value. -/
def is_article_valid (article_date : DateVal) (min_date : Date) : Bool :=
  match article_date with
  | .str _ => true
  | .date d => dateLe min_date d
  | .pynone => false

/-- `text.replace('\n', ' ').replace(',', ' ')` (line 141). -/
def replaceNlComma (t : String) : String :=
  String.mk (t.data.map (fun c => if c = '\n' then ' ' else if c = ',' then ' ' else c))

/-- `re.sub(r'[^\x20-\x7E]+', '', text)` (line 145): delete every
character outside the printable ASCII range. -/
def stripNonPrintable (t : String) : String :=
  String.mk (t.data.filter (fun c => decide (0x20 ≤ c.toNat ∧ c.toNat ≤ 0x7E)))

/-- `BaseScraper.extract_content` (lines 130-146).  The HTML layer is
abstracted: `selected` is `none` when `select_one(content_selector)`
found nothing, otherwise the stripped texts of the `p`/`h2`/`h3`/`li`
descendants in document order. -/
def extract_content (selected : Option (List String)) : String :=
  match selected with
  | none => ""
  | some texts =>
    stripNonPrintable (String.intercalate " || "
      (texts.foldl (fun acc t =>
        if t ≠ "" then acc ++ [replaceNlComma t] else acc) []))

/-- The spec's description of `extract_content` (spec sections 4.2, 8):
drop empty texts, join with " || ", strip non-printable characters —
with no other transformation.  Stated for comparison with the source. -/
def extract_content_spec (selected : Option (List String)) : String :=
  match selected with
  | none => ""
  | some texts =>
    stripNonPrintable (String.intercalate " || " (texts.filter (fun t => t != "")))

/-- One site entry for the orchestrator: the configured site name and
the outcome of `scraper.scrape()` for it — a list of articles, or the
exception it raised. -/
abbrev SiteRun := String × Except String (List Article)

/-- One iteration of the orchestrator loop body (lines 2743-2753). -/
def siteStep (st : List Article × List (String × String)) (cfg : SiteRun) :
    List Article × List (String × String) :=
  match cfg.2 with
  | .ok articles => (pySetUpdate st.1 articles, st.2)
  | .error e => (st.1, st.2 ++ [(cfg.1, e)])

/-- `scrape_selected_sites` (lines 2735-2763): fold the per-site loop
over the selected configurations, starting from an empty article set and
an empty error list. Returns (all_articles, errors). -/
def scrape_selected_sites (configs : List SiteRun) :
    List Article × List (String × String) :=
  configs.foldl siteStep ([], [])

/-- The abstracted HTML element handed to `extract_link`: its attribute
list and the results `select_one` would give for each CSS selector. -/
inductive Elem where
  | mk (attrs : List (String × String)) (selections : List (String × Elem))

/-- Attribute list of an element. -/
def Elem.attrs : Elem → List (String × String)
  | .mk a _ => a

/-- `tag.select_one(selector)`: the element this node yields for the
given selector, or `none`. -/
def Elem.selectOne : Elem → String → Option Elem
  | .mk _ sels, sel => (sels.find? (fun p => p.1 == sel)).map (fun p => p.2)

/-- `'href' in tag.attrs` / `tag['href']`. -/
def Elem.href (t : Elem) : Option String :=
  (t.attrs.find? (fun p => p.1 == "href")).map (fun p => p.2)

/-- Split a leading URI scheme: `scheme ':' rest` with the scheme one
alpha character followed by alphanumerics or `+`/`-`/`.` (RFC 3986),
as `urllib.parse` recognises it. -/
def schemeSplitAux : List Char → List Char → Option (String × String)
  | _, [] => none
  | acc, c :: rest =>
    if c = ':' then
      if acc ≠ [] then some (String.mk acc, String.mk rest) else none
    else if c.isAlpha || (acc ≠ [] && (c.isDigit || c = '+' || c = '-' || c = '.')) then
      schemeSplitAux (acc ++ [c]) rest
    else
      none

/-- Split `s` into scheme and remainder, when `s` starts with a scheme. -/
def schemeSplit (s : String) : Option (String × String) :=
  schemeSplitAux [] s.data

/-- The base path up to and including its last `/` (RFC 3986 merge);
empty when the path has no slash. -/
def dirname (path : List Char) : List Char :=
  (path.reverse.dropWhile (fun c => c != '/')).reverse

/-- `urllib.parse.urljoin`, modelled for the cases the scrapers hit:
absolute references, network-path (`//`) references, absolute-path and
relative-path references against an `http(s)://authority/path` base.
Dot-segment normalisation is not modelled (no caller produces `.`/`..`
segments). -/
def urljoin (base url : String) : String :=
  if url = "" then base
  else
    match schemeSplit url with
    | some _ => url
    | none =>
      match schemeSplit base with
      | none => url
      | some (sc, rest) =>
        let rcs := rest.data
        if rcs.take 2 = ['/', '/'] then
          let afterAuth := rcs.drop 2
          let auth := afterAuth.takeWhile (fun c => !(c == '/' || c == '?' || c == '#'))
          let path := afterAuth.dropWhile (fun c => !(c == '/' || c == '?' || c == '#'))
          if url.data.take 2 = ['/', '/'] then
            sc ++ ":" ++ url
          else if url.data.take 1 = ['/'] then
            sc ++ "://" ++ String.mk auth ++ url
          else if path = [] then
            sc ++ "://" ++ String.mk auth ++ "/" ++ url
          else
            sc ++ "://" ++ String.mk auth ++ String.mk (dirname path) ++ url
        else
          if url.data.take 1 = ['/'] then sc ++ ":" ++ url
          else sc ++ ":" ++ String.mk (dirname rcs) ++ url

/-- `BaseScraper.extract_link` (lines 96-107): optionally re-select by
the CSS selector, then return `urljoin(base_url, tag['href'])` when the
element exists and carries `href`, else the default. -/
def extract_link (tag : Elem) (selector : String) (base_url : String)
    (dflt : String) : String :=
  let picked := if selector ≠ "" then tag.selectOne selector else some tag
  match picked with
  | some t =>
    match t.href with
    | some h => urljoin base_url h
    | none => dflt
  | none => dflt

/-- Partial result of `datetime.strptime`: the fields found so far,
starting from strptime's defaults (1900, 1, 1). -/
structure PD where
  y : Nat
  m : Nat
  d : Nat
deriving DecidableEq

/-- Which date field a format directive sets. -/
inductive DField where
  | fy
  | fm
  | fd
deriving DecidableEq

/-- Store a parsed directive value. -/
def PD.set (pd : PD) (f : DField) (v : Nat) : PD :=
  match f with
  | .fy => { pd with y := v }
  | .fm => { pd with m := v }
  | .fd => { pd with d := v }

/-- Numeric value of an ASCII digit. -/
def digitVal (c : Char) : Nat := c.toNat - 48

/-- `%Y`: exactly four digits. -/
def candY (cs : List Char) : List (Nat × List Char) :=
  match cs with
  | a :: b :: c :: d :: rest =>
    if a.isDigit && b.isDigit && c.isDigit && d.isDigit then
      [(digitVal a * 1000 + digitVal b * 100 + digitVal c * 10 + digitVal d, rest)]
    else []
  | _ => []

/-- `%y`: exactly two digits; values up to 68 mean 20xx, the rest 19xx. -/
def candy2 (cs : List Char) : List (Nat × List Char) :=
  match cs with
  | a :: b :: rest =>
    if a.isDigit && b.isDigit then
      [(if digitVal a * 10 + digitVal b ≤ 68 then 2000 + digitVal a * 10 + digitVal b
        else 1900 + digitVal a * 10 + digitVal b, rest)]
    else []
  | _ => []

/-- `%m`: the regex alternation `1[0-2] | 0[1-9] | [1-9]`, in order. -/
def candM (cs : List Char) : List (Nat × List Char) :=
  (match cs with
   | '1' :: b :: rest =>
     if b = '0' || b = '1' || b = '2' then [(10 + digitVal b, rest)] else []
   | '0' :: b :: rest =>
     if b.isDigit && b ≠ '0' then [(digitVal b, rest)] else []
   | _ => []) ++
  (match cs with
   | a :: rest => if a.isDigit && a ≠ '0' then [(digitVal a, rest)] else []
   | _ => [])

/-- `%d`: the regex alternation `3[01] | [12][0-9] | 0[1-9] | [1-9]`. -/
def candD (cs : List Char) : List (Nat × List Char) :=
  (match cs with
   | '3' :: b :: rest =>
     if b = '0' || b = '1' then [(30 + digitVal b, rest)] else []
   | a :: b :: rest =>
     if (a = '1' || a = '2') && b.isDigit then
       [(digitVal a * 10 + digitVal b, rest)]
     else if a = '0' && b.isDigit && b ≠ '0' then [(digitVal b, rest)]
     else []
   | _ => []) ++
  (match cs with
   | a :: rest => if a.isDigit && a ≠ '0' then [(digitVal a, rest)] else []
   | _ => [])

/-- English month abbreviations in calendar order (locale C). -/
def monthAbbrs : List String :=
  ["jan", "feb", "mar", "apr", "may", "jun",
   "jul", "aug", "sep", "oct", "nov", "dec"]

/-- English full month names in calendar order (locale C). -/
def monthNames : List String :=
  ["january", "february", "march", "april", "may", "june",
   "july", "august", "september", "october", "november", "december"]

/-- Case-insensitive match of a lowercase keyword against the input
head. -/
def lowerEats (kw : String) (cs : List Char) : Bool :=
  kw.data == (cs.take kw.data.length).map Char.toLower

/-- Match a month from (calendar index, name) alternatives, tried in
the order given. -/
def candMonthName (names : List (Nat × String)) (cs : List Char) :
    List (Nat × List Char) :=
  names.foldr
    (fun p acc =>
      if lowerEats p.2 cs then (p.1, cs.drop p.2.data.length) :: acc else acc)
    []

/-- Dropping a whitespace run never lengthens a list. -/
theorem dropWhileLenLe (p : Char → Bool) (l : List Char) :
    (l.dropWhile p).length ≤ l.length := by
  induction l with
  | nil => simp
  | cons c cs ih =>
    by_cases h : p c <;> simp [List.dropWhile, h] <;> omega

/-- Candidate (field, value, rest) parses for one format directive, in
the order the compiled regex would try them; `none` marks a directive
`_strptime` does not support for this model (it raises ValueError). -/
def dirCands (c : Char) (cs : List Char) : Option (List (DField × Nat × List Char)) :=
  match c with
  | 'Y' => some ((candY cs).map (fun p => (DField.fy, p.1, p.2)))
  | 'y' => some ((candy2 cs).map (fun p => (DField.fy, p.1, p.2)))
  | 'm' => some ((candM cs).map (fun p => (DField.fm, p.1, p.2)))
  | 'd' => some ((candD cs).map (fun p => (DField.fd, p.1, p.2)))
  | 'b' =>
    some ((candMonthName (List.enumFrom 1 monthAbbrs) cs).map
      (fun p => (DField.fm, p.1, p.2)))
  | 'B' =>
    some ((candMonthName
        ((List.enumFrom 1 monthNames).mergeSort
          (fun a b => b.2.data.length ≤ a.2.data.length)) cs).map
      (fun p => (DField.fm, p.1, p.2)))
  | _ => none

/-- `_strptime` replaces each run of whitespace in the format by a
single greedy whitespace pattern; collapse such runs to one space. -/
def collapseWsAux : Bool → List Char → List Char
  | _, [] => []
  | prevWs, c :: rest =>
    if c.isWhitespace then
      if prevWs then collapseWsAux true rest
      else ' ' :: collapseWsAux true rest
    else c :: collapseWsAux false rest

/-- Collapse every whitespace run to a single space. -/
def collapseWs (l : List Char) : List Char := collapseWsAux false l

/-- Match the (whitespace-collapsed) format against the input with
regex-style ordered alternation and full anchoring at the end
(`strptime` rejects unconverted trailing data).  A whitespace character
of the format matches one or more whitespace characters of the input;
literal letters match case-insensitively (`_strptime` compiles with
IGNORECASE). -/
def matchFmt : List Char → List Char → PD → Option PD
  | [], cs, acc => if cs.isEmpty then some acc else none
  | '%' :: dfs, cs, acc =>
    match dfs with
    | [] => none
    | dch :: fs =>
      if dch = '%' then
        match cs with
        | '%' :: rest => matchFmt fs rest acc
        | _ => none
      else
        match dirCands dch cs with
        | some cands =>
          cands.findSome? (fun c => matchFmt fs c.2.2 (acc.set c.1 c.2.1))
        | none => none
  | f :: fs, cs, acc =>
    if f.isWhitespace then
      let rest := cs.dropWhile Char.isWhitespace
      if rest.length < cs.length then matchFmt fs rest acc else none
    else
      match cs with
      | c :: rest => if c.toLower = f.toLower then matchFmt fs rest acc else none
      | [] => none

/-- Leap years of the proleptic Gregorian calendar (`calendar.isleap`). -/
def isLeap (y : Nat) : Bool :=
  (y % 4 == 0 && y % 100 != 0) || y % 400 == 0

/-- Days in a month, as `datetime` validates them. -/
def daysInMonth (y m : Nat) : Nat :=
  if m = 2 then (if isLeap y then 29 else 28)
  else if m = 4 || m = 6 || m = 9 || m = 11 then 30
  else 31

/-- `datetime.strptime(s, fmt).date()` for the date directives the
scrapers use, returning `none` where Python raises ValueError (pattern
mismatch, trailing data, bad directive, or out-of-range date fields). -/
def strptimeDate (s fmt : String) : Option Date :=
  match matchFmt (collapseWs fmt.data) s.data ⟨1900, 1, 1⟩ with
  | none => none
  | some pd =>
    if 1 ≤ pd.y && pd.y ≤ 9999 && 1 ≤ pd.m && pd.m ≤ 12 &&
        1 ≤ pd.d && pd.d ≤ daysInMonth pd.y pd.m then
      some ⟨pd.y, pd.m, pd.d⟩
    else none

/-- `BaseScraper.parse_date` (lines 148-153) on a string argument: the
`try` body runs `strptime`, whose only failure on a string input is a
ValueError, and the `except ValueError` arm returns the marker string
"No Date". -/
def parse_date_str (s fmt : String) : DateVal :=
  match strptimeDate s fmt with
  | some d => DateVal.date d
  | none => DateVal.str "No Date"

/-- `BaseScraper.parse_date` on the value actually passed by callers
(`extract_text` may hand it `None`, on which `strptime` raises a
TypeError that the `except ValueError` clause does not catch). -/
def parse_date (dateStr : Option String) (fmt : String) : Except PyExn DateVal :=
  match dateStr with
  | none => .error .typeError
  | some s => .ok (parse_date_str s fmt)

/-- One listing entry of the InfoSecurity Magazine site, with the raw
pieces the selector layer hands to `extract_article_details`
(lines 1195-1214): the text of the `time` element (or `None` when it is
missing), the already-extracted scalar fields, and the environment of
the detail-page fetch. -/
structure ISItem where
  dateText : Option String
  title : String
  link : String
  description : String
  image : String
  detailFetch : FetchOutcome
  detailTexts : Option (List String)
deriving DecidableEq

/-- `InfoSecurityMagazineScraper.extract_article_content`
(lines 1173-1186): fetch the detail page; a falsy body yields `None`,
otherwise the joined content of `div.content-module`. -/
def infosec_extract_article_content (it : ISItem) :
    Except PyExn (Option String) :=
  match fetch_page_content false it.detailFetch with
  | .error e => .error e
  | .ok pc =>
    if strTruthy pc then .ok (some (extract_content it.detailTexts))
    else .ok none

/-- `InfoSecurityMagazineScraper.extract_article_details`
(lines 1195-1214): parse the date, gate on `is_article_valid` (returning
`None` for a stale article), then build the Article. -/
def infosec_extract_article_details (min_date : Date) (it : ISItem) :
    Except PyExn (Option Article) :=
  match parse_date it.dateText "%d %b %Y" with
  | .error e => .error e
  | .ok article_date =>
    if is_article_valid article_date min_date then
      match infosec_extract_article_content it with
      | .error e => .error e
      | .ok content =>
        .ok (some ⟨it.title, it.link, article_date, Tags.pynone,
          "InfoSecurity Magazine", some it.description, some it.image, content⟩)
    else .ok none

/-- The inner `for article in article_items` loop of
`InfoSecurityMagazineScraper.scrape` (lines 1242-1248): append valid
articles in order; on the first stale article set `stop_scraping` and
break. -/
def infosec_process_items (min_date : Date) :
    List ISItem → Except PyExn (List Article × Bool)
  | [] => .ok ([], false)
  | it :: rest =>
    match infosec_extract_article_details min_date it with
    | .error e => .error e
    | .ok (some a) =>
      match infosec_process_items min_date rest with
      | .error e => .error e
      | .ok (l, stop) => .ok (a :: l, stop)
    | .ok none => .ok ([], true)

/-- One listing page as the environment presents it: `none` when
`fetch_page_content` returned a falsy body, otherwise the extracted
`li.webpage-item` entries. -/
abbrev ISPage := Option (List ISItem)

/-- `InfoSecurityMagazineScraper.scrape` (lines 1216-1254): walk the
pages until a fetch failure, an empty listing, or the first stale
article (strict-stop staleness policy). -/
def infosec_scrape (min_date : Date) : List ISPage → Except PyExn (List Article)
  | [] => .ok []
  | none :: _ => .ok []
  | some [] :: _ => .ok []
  | some (it :: its) :: rest =>
    match infosec_process_items min_date (it :: its) with
    | .error e => .error e
    | .ok (arts, true) => .ok arts
    | .ok (arts, false) =>
      match infosec_scrape min_date rest with
      | .error e => .error e
      | .ok more => .ok (arts ++ more)

/-- One CISA listing container with its pre-extracted pieces
(`CISAScraper.extract_article_details`, lines 846-859). `extract_text`
defaults the date text to the empty string, so it is always a string. -/
structure CItem where
  dateText : String
  title : String
  url : String
  tagsText : String
  detailFetch : FetchOutcome
  detailTexts : Option (List String)
deriving DecidableEq

/-- `str.split("|")` on the tags text, modelled on the character list. -/
def pipeSplit (s : String) : List String :=
  (s.data.splitOn '|').map String.mk

/-- `CISAScraper.extract_article_content` (lines 861-871). -/
def cisa_extract_article_content (c : CItem) : Except PyExn (Option String) :=
  match fetch_page_content true c.detailFetch with
  | .error e => .error e
  | .ok pc =>
    if strTruthy pc then .ok (some (extract_content c.detailTexts))
    else .ok none

/-- `CISAScraper.extract_article_details` (lines 846-859): gate on the
parsed date first; a stale article yields `None` before any further
extraction. -/
def cisa_extract_article_details (min_date : Date) (c : CItem) :
    Except PyExn (Option Article) :=
  match parse_date (some c.dateText) "%b %d, %Y" with
  | .error e => .error e
  | .ok article_date =>
    if is_article_valid article_date min_date then
      match cisa_extract_article_content c with
      | .error e => .error e
      | .ok content =>
        .ok (some ⟨c.title, c.url, article_date,
          Tags.ofList (pipeSplit c.tagsText), "CISA", none, none, content⟩)
    else .ok none

/-- The `for container in article_containers` loop of
`CISAScraper.scrape_page` (lines 890-893): a container whose details
come back `None` is simply skipped; the loop continues with the next
container. -/
def cisa_process (min_date : Date) : List CItem → Except PyExn (List Article)
  | [] => .ok []
  | c :: rest =>
    match cisa_extract_article_details min_date c with
    | .error e => .error e
    | .ok (some a) =>
      match cisa_process min_date rest with
      | .error e => .error e
      | .ok l => .ok (a :: l)
    | .ok none => cisa_process min_date rest

/-- `CISAScraper.scrape_page` (lines 873-895): fetch the page (falsy
body gives no articles), extract the containers (an empty list gives no
articles), then run the per-container loop. -/
def cisa_scrape_page (min_date : Date) (pageFetch : FetchOutcome)
    (containers : List CItem) : Except PyExn (List Article) :=
  match fetch_page_content true pageFetch with
  | .error e => .error e
  | .ok pc =>
    if strTruthy pc then
      if containers.isEmpty then .ok [] else cisa_process min_date containers
    else .ok []

/-- One Dragos listing article with its pre-extracted pieces
(`DragosScraper.extract_article_details`, lines 616-636). `thumbStyle`
is the `style` attribute of the thumbnail div, `none` when the div is
missing (subscripting `None` then raises a TypeError). -/
structure DItem where
  dateText : String
  title : String
  url : String
  tagsText : String
  thumbStyle : Option String
  detailTexts : Option (List String)
deriving DecidableEq

/-- Python `str.strip()`. -/
def pyStrip (s : String) : String :=
  String.mk (((s.data.dropWhile Char.isWhitespace).reverse.dropWhile
    Char.isWhitespace).reverse)

/-- `re.search(r'url\((.*?)\)', style).group(1)`: the text between the
first "url(" and the next ")"; `None` when the pattern never matches
(then `.group` raises an AttributeError). -/
def findUrlParen : List Char → Option (List Char)
  | 'u' :: 'r' :: 'l' :: '(' :: rest =>
    if rest.any (fun c => c == ')') then some (rest.takeWhile (fun c => c != ')'))
    else none
  | _ :: rest => findUrlParen rest
  | [] => none

/-- `DragosScraper.extract_article_details` (lines 616-636): gate on the
parsed date first, then extract the thumbnail image from the inline
style and the detail-page content. -/
def dragos_extract_article_details (min_date : Date) (d : DItem) :
    Except PyExn (Option Article) :=
  let article_date := parse_date_str d.dateText "%m.%d.%y"
  if is_article_valid article_date min_date then
    match d.thumbStyle with
    | none => .error .typeError
    | some sty =>
      if sty = "" then
        .ok (some ⟨d.title, d.url, article_date, Tags.ofString d.tagsText,
          "Dragos", none, some "", some (extract_content d.detailTexts)⟩)
      else
        match findUrlParen sty.data with
        | none => .error .attributeError
        | some u =>
          .ok (some ⟨d.title, d.url, article_date, Tags.ofString d.tagsText,
            "Dragos", none, some (pyStrip (String.mk u)),
            some (extract_content d.detailTexts)⟩)
  else .ok none

/-- The `for article in articles[initial_article_count:]` loop of
`DragosScraper.scrape_page` (lines 653-658): articles whose details come
back `None` are skipped and the loop continues. -/
def dragos_process (min_date : Date) : List DItem → Except PyExn (List Article)
  | [] => .ok []
  | d :: rest =>
    match dragos_extract_article_details min_date d with
    | .error e => .error e
    | .ok (some a) =>
      match dragos_process min_date rest with
      | .error e => .error e
      | .ok l => .ok (a :: l)
    | .ok none => dragos_process min_date rest

/-- `DragosScraper.scrape_page` (lines 647-660). -/
def dragos_scrape_page (min_date : Date) (items : List DItem)
    (initialArticleCount : Nat) : Except PyExn (List Article) :=
  dragos_process min_date (items.drop initialArticleCount)

/-- The time units of the regex
`(\d+)\s*(day|hour|minute|second|week|month|year)s?\s*ago` in
`SecurityWeekScraper.calculate_article_date` (line 454). -/
inductive TimeUnit where
  | day
  | hour
  | minute
  | second
  | week
  | month
  | year
deriving DecidableEq

/-- The unit alternatives in the regex's order.  No alternative is a
prefix of another, so the order never matters for which one matches. -/
def relTimeUnits : List (String × TimeUnit) :=
  [("day", .day), ("hour", .hour), ("minute", .minute), ("second", .second),
   ("week", .week), ("month", .month), ("year", .year)]

/-- Value of a nonempty digit run (the regex group `(\d+)`). -/
def digitsToNat (ds : List Char) : Nat :=
  ds.foldl (fun n c => n * 10 + digitVal c) 0

/-- The regex tail `\s*ago` as a prefix test (after `re.search` finds
"ago", the rest of the input is unconstrained). -/
def matchAgo (cs : List Char) : Bool :=
  (cs.dropWhile Char.isWhitespace).take 3 = ['a', 'g', 'o']

/-- Match `(unit)s?\s*ago` at the current position, trying the `s?`
greedily first and backtracking to the empty branch. -/
def matchUnitAt (cs : List Char) : Option TimeUnit :=
  relTimeUnits.findSome? (fun p =>
    if p.1.data.isPrefixOf cs then
      let rest := cs.drop p.1.data.length
      if (match rest with
          | 's' :: r => matchAgo r
          | _ => false) || matchAgo rest then
        some p.2
      else none
    else none)

/-- Try the whole pattern anchored at this position.  The greedy `\d+`
and `\s*` never need to backtrack here: a digit can neither start a unit
keyword nor be whitespace. -/
def searchRelAt (cs : List Char) : Option (Nat × TimeUnit) :=
  let digits := cs.takeWhile Char.isDigit
  let rest := cs.dropWhile Char.isDigit
  if digits.isEmpty then none
  else
    match matchUnitAt (rest.dropWhile Char.isWhitespace) with
    | some u => some (digitsToNat digits, u)
    | none => none

/-- `re.search`: try the pattern at each start position left to right. -/
def searchRelTime : List Char → Option (Nat × TimeUnit)
  | [] => none
  | c :: rest =>
    match searchRelAt (c :: rest) with
    | some r => some r
    | none => searchRelTime rest

/-- The `timedelta` subtracted for a quantity of a unit, in seconds
(lines 467-480: month is approximated as 30 days, year as 365 days). -/
def secondsOf (u : TimeUnit) (q : Nat) : Nat :=
  match u with
  | .day => 86400 * q
  | .hour => 3600 * q
  | .minute => 60 * q
  | .second => q
  | .week => 604800 * q
  | .month => 86400 * 30 * q
  | .year => 86400 * 365 * q

/-- `.date()` on a datetime modelled as seconds on a time line: the day
index, by floor division (Int division by a positive divisor is floor
division). -/
def dateOfSec (t : Int) : Int := t / 86400

/-- `SecurityWeekScraper.calculate_article_date` (lines 448-484),
evaluated at a fixed current time `now` (in seconds): search the
relative-time pattern, subtract the corresponding offset, take the
date. -/
def calculate_article_date (now : Int) (relativeTimeStr : String) :
    Option Int :=
  match searchRelTime relativeTimeStr.data with
  | none => none
  | some (q, u) => some (dateOfSec (now - (secondsOf u q : Int)))

/-- Subtracting whole days commutes with taking the date. -/
theorem dateOfSec_sub_mul (a k : Int) :
    dateOfSec (a - k * 86400) = dateOfSec a - k := by
  unfold dateOfSec
  have h : a - k * 86400 = a + (-k) * 86400 := by ring
  rw [h, Int.add_mul_ediv_right a (-k) (by norm_num : (86400 : Int) ≠ 0)]
  ring

/-- A digit run followed by a non-digit splits cleanly under
takeWhile/dropWhile. -/
theorem takeWhile_digits_append (ds : List Char) (t : Char) (ts : List Char)
    (hdig : ∀ c ∈ ds, c.isDigit = true) (ht : t.isDigit = false) :
    (ds ++ t :: ts).takeWhile Char.isDigit = ds ∧
      (ds ++ t :: ts).dropWhile Char.isDigit = t :: ts := by
  induction ds with
  | nil => simp [List.takeWhile_cons, List.dropWhile_cons, ht]
  | cons c cs ih =>
    have hc := hdig c (by simp)
    have ih2 := ih (fun x hx => hdig x (by simp [hx]))
    simp [List.takeWhile_cons, List.dropWhile_cons, hc, ih2]

/-- The search succeeds immediately on a digit run followed by a
recognised `unit(s) ago` tail. -/
theorem searchRelTime_digit_run (d : Char) (ds' : List Char)
    (hdig : ∀ c ∈ d :: ds', c.isDigit = true)
    (t : Char) (ts : List Char) (ht : t.isDigit = false) (u : TimeUnit)
    (hu : matchUnitAt ((t :: ts).dropWhile Char.isWhitespace) = some u) :
    searchRelTime ((d :: ds') ++ t :: ts) =
      some (digitsToNat (d :: ds'), u) := by
  obtain ⟨htake, hdrop⟩ := takeWhile_digits_append (d :: ds') t ts hdig ht
  have hat : searchRelAt ((d :: ds') ++ t :: ts) =
      some (digitsToNat (d :: ds'), u) := by
    unfold searchRelAt
    simp only [htake, hdrop, hu, List.isEmpty_cons, Bool.false_eq_true, if_false]
  show (match searchRelAt (d :: (ds' ++ t :: ts)) with
    | some r => some r
    | none => searchRelTime (ds' ++ t :: ts)) = _
  rw [show d :: (ds' ++ t :: ts) = (d :: ds') ++ t :: ts from rfl, hat]

/-- C4: the relative-time parser maps "3 days ago" to the date of
`now - 3 days`, "1 week ago" to `now - 7 days`, a digit run `N` with
" months ago" to `now - 30*N days` and with " years ago" to
`now - 365*N days`, and yields `None` when the unit is unrecognised or
the pattern is absent. -/
theorem c4_calculate_article_date :
    ∀ (now : Int) (ds : List Char), ds ≠ [] → (∀ c ∈ ds, c.isDigit = true) →
      calculate_article_date now "3 days ago" = some (dateOfSec now - 3) ∧
      calculate_article_date now "1 week ago" = some (dateOfSec now - 7) ∧
      calculate_article_date now (String.mk (ds ++ (" months ago").data)) =
        some (dateOfSec now - 30 * (digitsToNat ds : Int)) ∧
      calculate_article_date now (String.mk (ds ++ (" years ago").data)) =
        some (dateOfSec now - 365 * (digitsToNat ds : Int)) ∧
      calculate_article_date now "3 decades ago" = none ∧
      calculate_article_date now "tomorrow" = none := by
  intro now ds hne hdig
  obtain ⟨d, ds', rfl⟩ : ∃ d ds', ds = d :: ds' := by
    cases ds with
    | nil => exact absurd rfl hne
    | cons d ds' => exact ⟨d, ds', rfl⟩
  refine ⟨?_, ?_, ?_, ?_, rfl, rfl⟩
  · have hs : searchRelTime ("3 days ago".data) = some (3, TimeUnit.day) := by
      decide
    simp only [calculate_article_date, hs]
    have hsec : ((secondsOf TimeUnit.day 3 : Nat) : Int) = 3 * 86400 := by decide
    rw [hsec, dateOfSec_sub_mul]
  · have hs : searchRelTime ("1 week ago".data) = some (1, TimeUnit.week) := by
      decide
    simp only [calculate_article_date, hs]
    have hsec : ((secondsOf TimeUnit.week 1 : Nat) : Int) = 7 * 86400 := by decide
    rw [hsec, dateOfSec_sub_mul]
  · have hs : searchRelTime ((d :: ds') ++ (" months ago").data) =
        some (digitsToNat (d :: ds'), TimeUnit.month) :=
      searchRelTime_digit_run d ds' hdig ' ' ("months ago".data) (by decide)
        TimeUnit.month (by decide)
    simp only [calculate_article_date, hs]
    have hsec : ((secondsOf TimeUnit.month (digitsToNat (d :: ds')) : Nat) : Int) =
        (30 * (digitsToNat (d :: ds') : Int)) * 86400 := by
      simp only [secondsOf]
      push_cast
      ring
    rw [hsec, dateOfSec_sub_mul]
  · have hs : searchRelTime ((d :: ds') ++ (" years ago").data) =
        some (digitsToNat (d :: ds'), TimeUnit.year) :=
      searchRelTime_digit_run d ds' hdig ' ' ("years ago".data) (by decide)
        TimeUnit.year (by decide)
    simp only [calculate_article_date, hs]
    have hsec : ((secondsOf TimeUnit.year (digitsToNat (d :: ds')) : Nat) : Int) =
        (365 * (digitsToNat (d :: ds') : Int)) * 86400 := by
      simp only [secondsOf]
      push_cast
      ring
    rw [hsec, dateOfSec_sub_mul]

theorem c4_calculate_article_date_witness :
    calculate_article_date 0 "3 days ago" = some (dateOfSec 0 - 3) ∧
    calculate_article_date 0 "1 week ago" = some (dateOfSec 0 - 7) ∧
    calculate_article_date 0 (String.mk (['2'] ++ (" months ago").data)) =
      some (dateOfSec 0 - 30 * (digitsToNat ['2'] : Int)) ∧
    calculate_article_date 0 (String.mk (['2'] ++ (" years ago").data)) =
      some (dateOfSec 0 - 365 * (digitsToNat ['2'] : Int)) ∧
    calculate_article_date 0 "3 decades ago" = none ∧
    calculate_article_date 0 "tomorrow" = none :=
  c4_calculate_article_date 0 ['2'] (by decide) (by decide)

/-- `articleEq` is equality of the (title, url) pair. -/
theorem articleEq_true_iff (a b : Article) :
    articleEq a b = true ↔ a.title = b.title ∧ a.url = b.url := by
  simp [articleEq]

/-- Inserting into the modelled Python set preserves pairwise-distinct
(title, url) keys. -/
theorem pairwiseKey_pySetAdd (s : List Article) (a : Article)
    (h : s.Pairwise (fun x y => x.title ≠ y.title ∨ x.url ≠ y.url)) :
    (pySetAdd s a).Pairwise (fun x y => x.title ≠ y.title ∨ x.url ≠ y.url) := by
  unfold pySetAdd
  cases hc : s.any (fun b => articleEq b a) with
  | true => simpa using h
  | false =>
    simp only [Bool.false_eq_true, if_false]
    rw [List.pairwise_append]
    refine ⟨h, List.pairwise_singleton _ _, ?_⟩
    intro x hx y hy
    simp only [List.mem_singleton] at hy
    subst hy
    have hx2 : articleEq x y ≠ true := by
      intro habs
      have : s.any (fun b => articleEq b y) = true :=
        List.any_eq_true.mpr ⟨x, hx, habs⟩
      rw [hc] at this
      exact Bool.false_ne_true this
    have hne : ¬(x.title = y.title ∧ x.url = y.url) := fun hand => by
      exact hx2 ((articleEq_true_iff x y).mpr hand)
    exact not_and_or.mp hne

theorem pairwiseKey_pySetUpdate (l : List Article) (s : List Article)
    (h : s.Pairwise (fun x y => x.title ≠ y.title ∨ x.url ≠ y.url)) :
    (pySetUpdate s l).Pairwise (fun x y => x.title ≠ y.title ∨ x.url ≠ y.url) := by
  induction l generalizing s with
  | nil => exact h
  | cons a l ih => exact ih _ (pairwiseKey_pySetAdd s a h)

theorem pairwiseKey_siteFold (configs : List SiteRun)
    (st : List Article × List (String × String))
    (h : st.1.Pairwise (fun x y => x.title ≠ y.title ∨ x.url ≠ y.url)) :
    (configs.foldl siteStep st).1.Pairwise
      (fun x y => x.title ≠ y.title ∨ x.url ≠ y.url) := by
  induction configs generalizing st with
  | nil => exact h
  | cons c cs ih =>
    rw [List.foldl_cons]
    apply ih
    cases hc : c.2 with
    | ok arts => simpa [siteStep, hc] using pairwiseKey_pySetUpdate arts st.1 h
    | error e => simpa [siteStep, hc] using h

/-- C2: Article equality and hashing are functions of (title, url)
alone, and the orchestrator's aggregated result set never contains two
articles with the same (title, url) pair. -/
theorem c2_identity_by_title_url_and_result_set_unique :
    (∀ a b : Article, a.title = b.title → a.url = b.url →
        articleEq a b = true ∧ article_hash a = article_hash b) ∧
    (∀ configs : List SiteRun,
        (scrape_selected_sites configs).1.Pairwise
          (fun x y => x.title ≠ y.title ∨ x.url ≠ y.url)) := by
  constructor
  · intro a b ht hu
    refine ⟨(articleEq_true_iff a b).mpr ⟨ht, hu⟩, ?_⟩
    simp [article_hash, ht, hu]
  · intro configs
    exact pairwiseKey_siteFold configs ([], []) (by simp)

/-- Two concrete articles agreeing on (title, url) but on nothing else. -/
def artW1 : Article :=
  ⟨"T", "U", DateVal.pynone, Tags.pynone, "s1", none, none, none⟩

/-- Counterpart of `artW1` with different date, tags, source,
description, image and content. -/
def artW2 : Article :=
  ⟨"T", "U", DateVal.str "No Date", Tags.ofString "x", "s2",
    some "d", some "i", some "c"⟩

theorem c2_identity_witness :
    articleEq artW1 artW2 = true ∧ article_hash artW1 = article_hash artW2 :=
  c2_identity_by_title_url_and_result_set_unique.1 artW1 artW2 rfl rfl

/-- The article-set component of the orchestrator fold does not depend
on the error accumulator. -/
theorem siteFold_fst_errs_irrelevant (configs : List SiteRun)
    (s : List Article) (e1 e2 : List (String × String)) :
    (configs.foldl siteStep (s, e1)).1 = (configs.foldl siteStep (s, e2)).1 := by
  induction configs generalizing s e1 e2 with
  | nil => rfl
  | cons c cs ih =>
    rw [List.foldl_cons, List.foldl_cons]
    cases hc : c.2 with
    | ok arts => simpa [siteStep, hc] using ih (pySetUpdate s arts) e1 e2
    | error e => simpa [siteStep, hc] using ih s (e1 ++ [(c.1, e)]) (e2 ++ [(c.1, e)])

/-- Recorded errors are never removed by later iterations of the
orchestrator loop. -/
theorem siteFold_errs_monotone (configs : List SiteRun)
    (st : List Article × List (String × String)) (x : String × String)
    (h : x ∈ st.2) : x ∈ (configs.foldl siteStep st).2 := by
  induction configs generalizing st with
  | nil => exact h
  | cons c cs ih =>
    rw [List.foldl_cons]
    apply ih
    cases hc : c.2 with
    | ok arts => simpa [siteStep, hc] using h
    | error e => simp [siteStep, hc, List.mem_append, h]

/-- C7: a site whose scrape raises contributes nothing to the article
set but does not change what the remaining sites contribute, and the
error is recorded. -/
theorem c7_orchestrator_survives_site_exception :
    ∀ (pre post : List SiteRun) (name e : String),
      (scrape_selected_sites (pre ++ (name, Except.error e) :: post)).1 =
        (scrape_selected_sites (pre ++ post)).1 ∧
      (name, e) ∈ (scrape_selected_sites (pre ++ (name, Except.error e) :: post)).2 := by
  intro pre post name e
  unfold scrape_selected_sites
  rw [List.foldl_append, List.foldl_append, List.foldl_cons]
  constructor
  · have hstep : siteStep (pre.foldl siteStep ([], [])) (name, Except.error e) =
        ((pre.foldl siteStep ([], [])).1,
          (pre.foldl siteStep ([], [])).2 ++ [(name, e)]) := by
      simp [siteStep]
    rw [hstep]
    exact siteFold_fst_errs_irrelevant post _ _ _
  · apply siteFold_errs_monotone
    simp [siteStep]

/-- C10: `is_article_valid` accepts every string date (not only the
"No Date" marker), rejects `None`, and compares real dates against the
cutoff. -/
theorem c10_any_string_date_is_valid :
    ∀ (s : String) (min_date : Date) (d : Date),
      is_article_valid (DateVal.str s) min_date = true ∧
      is_article_valid DateVal.pynone min_date = false ∧
      is_article_valid (DateVal.date d) min_date = dateLe min_date d := by
  intro s min_date d
  exact ⟨rfl, rfl, rfl⟩

/-- The loop of `extract_content` is filter-then-map of the per-text
replacement, relative to the running accumulator. -/
theorem extract_content_foldl (texts : List String) (acc : List String) :
    texts.foldl (fun acc t =>
        if t ≠ "" then acc ++ [replaceNlComma t] else acc) acc =
      acc ++ (texts.filter (fun t => t != "")).map replaceNlComma := by
  induction texts generalizing acc with
  | nil => simp
  | cons t ts ih =>
    by_cases h : t = ""
    · subst h
      simpa using ih acc
    · rw [List.foldl_cons, List.filter_cons]
      simp only [h, if_pos, ne_eq, not_false_iff, bne_iff_ne, if_true]
      rw [ih]
      simp

/-- C9 counterexample: the code also replaces commas (and newlines) by
spaces inside each text, which the claim's description omits; on the
single paragraph "a,b" the code returns "a b", not "a,b". -/
theorem c9_counterexample_comma_replaced :
    extract_content (some ["a,b"]) = "a b" ∧
    extract_content_spec (some ["a,b"]) = "a,b" ∧
    extract_content (some ["a,b"]) ≠ extract_content_spec (some ["a,b"]) := by
  refine ⟨rfl, rfl, ?_⟩
  decide

/-- C9 amended: `extract_content` drops empty texts, replaces newline
and comma characters by spaces inside each remaining text, joins with
" || ", and strips characters outside printable ASCII; a missing
subtree yields "". -/
theorem c9_amended_content_pipeline :
    ∀ texts : List String,
      extract_content none = "" ∧
      extract_content (some texts) =
        stripNonPrintable (String.intercalate " || "
          ((texts.filter (fun t => t != "")).map replaceNlComma)) := by
  intro texts
  refine ⟨rfl, ?_⟩
  show stripNonPrintable (String.intercalate " || "
      (texts.foldl (fun acc t =>
        if t ≠ "" then acc ++ [replaceNlComma t] else acc) [])) = _
  rw [extract_content_foldl texts []]
  simp

/-- C6 counterexample: a transport error inside `requests.get` /
`cloudscraper.get` propagates out of `fetch_page_content` as an
exception; it is not converted to the `None` failure value. -/
theorem c6_counterexample_transport_error_raises :
    fetch_page_content true (FetchOutcome.transportError "timeout") ≠
      Except.ok none ∧
    fetch_page_content true (FetchOutcome.transportError "timeout") =
      Except.error (PyExn.requestException "timeout") := by
  refine ⟨?_, rfl⟩
  intro h
  exact Except.noConfusion h

/-- C6 amended: `fetch_page_content` returns the body on HTTP 200 and
`None` (with a logged message) on any other status, but a transport
error raised by the HTTP client propagates to the caller uncaught. -/
theorem c6_amended_fetch_page_content :
    ∀ (mode : Bool) (text : String) (status : Nat) (msg : String),
      fetch_page_content mode (FetchOutcome.response 200 text) =
        Except.ok (some text) ∧
      (status ≠ 200 →
        fetch_page_content mode (FetchOutcome.response status text) =
          Except.ok none) ∧
      fetch_page_content mode (FetchOutcome.transportError msg) =
        Except.error (PyExn.requestException msg) := by
  intro mode text status msg
  refine ⟨rfl, ?_, rfl⟩
  intro h
  simp [fetch_page_content, h]

theorem c6_amended_fetch_page_content_witness :
    fetch_page_content false (FetchOutcome.response 404 "nope") =
      Except.ok none :=
  (c6_amended_fetch_page_content false "nope" 404 "m").2.1 (by decide)

/-- A concrete listing element whose selector "a" yields a child with a
relative href "b". -/
def elemW : Elem := Elem.mk [] [("a", Elem.mk [("href", "b")] [])]

/-- C8: `extract_link` resolves a present href against the base URL with
`urljoin` (in particular base "https://x.com/a/" and href "b" give
"https://x.com/a/b"), and returns the default when the selected element
is missing or has no href. -/
theorem c8_extract_link_resolution :
    (∀ (t t2 : Elem) (sel base dflt h : String), sel ≠ "" →
        t.selectOne sel = some t2 → t2.href = some h →
        extract_link t sel base dflt = urljoin base h) ∧
    (∀ (t : Elem) (sel base dflt : String), sel ≠ "" →
        t.selectOne sel = none → extract_link t sel base dflt = dflt) ∧
    (∀ (t t2 : Elem) (sel base dflt : String), sel ≠ "" →
        t.selectOne sel = some t2 → t2.href = none →
        extract_link t sel base dflt = dflt) ∧
    urljoin "https://x.com/a/" "b" = "https://x.com/a/b" ∧
    extract_link elemW "a" "https://x.com/a/" "" = "https://x.com/a/b" := by
  refine ⟨?_, ?_, ?_, by decide, by decide⟩
  · intro t t2 sel base dflt h hsel hpick hhref
    simp [extract_link, hsel, hpick, hhref]
  · intro t sel base dflt hsel hpick
    simp [extract_link, hsel, hpick]
  · intro t t2 sel base dflt hsel hpick hhref
    simp [extract_link, hsel, hpick, hhref]

theorem c8_extract_link_resolution_witness :
    extract_link elemW "a" "https://x.com/a/" "" =
      urljoin "https://x.com/a/" "b" :=
  c8_extract_link_resolution.1 elemW (Elem.mk [("href", "b")] [])
    "a" "https://x.com/a/" "" "b" (by decide) rfl rfl

/-- C5: on any text and format, `parse_date` either returns the strict
parse of the text against that one format or the marker "No Date"; the
ValueError raised by a failed parse is always caught, so no exception
reaches the caller. -/
theorem c5_parse_date_never_raises :
    ∀ (text fmt : String),
      (∃ d, strptimeDate text fmt = some d ∧
        parse_date (some text) fmt = Except.ok (DateVal.date d)) ∨
      (strptimeDate text fmt = none ∧
        parse_date (some text) fmt = Except.ok (DateVal.str "No Date")) := by
  intro text fmt
  cases h : strptimeDate text fmt with
  | some d => exact Or.inl ⟨d, rfl, by simp [parse_date, parse_date_str, h]⟩
  | none => exact Or.inr ⟨rfl, by simp [parse_date, parse_date_str, h]⟩

example : strptimeDate "06 Jan 2025" "%d %b %Y" = some ⟨2025, 1, 6⟩ := by decide

example : strptimeDate "2024-02-30" "%Y-%m-%d" = none := by decide

example : parse_date (some "garbage") "%d %b %Y" =
    Except.ok (DateVal.str "No Date") := by decide

/-- `parse_date_str` only ever produces the marker string or a date. -/
theorem parse_date_str_shape (s fmt : String) :
    parse_date_str s fmt = DateVal.str "No Date" ∨
      ∃ d, strptimeDate s fmt = some d ∧ parse_date_str s fmt = DateVal.date d := by
  unfold parse_date_str
  cases h : strptimeDate s fmt with
  | none => exact Or.inl rfl
  | some d => exact Or.inr ⟨d, rfl, rfl⟩

/-- An article built by the InfoSecurity detail extractor passed the
`is_article_valid` gate, and its date came from `parse_date`. -/
theorem infosec_details_valid (min_date : Date) (it : ISItem) (a : Article)
    (h : infosec_extract_article_details min_date it = .ok (some a)) :
    is_article_valid a.date min_date = true ∧
      ((∃ s, a.date = DateVal.str s) ∨ ∃ d, a.date = DateVal.date d) := by
  unfold infosec_extract_article_details at h
  cases hd : it.dateText with
  | none => simp [parse_date, hd] at h
  | some s =>
    simp only [parse_date, hd] at h
    by_cases hv : is_article_valid (parse_date_str s "%d %b %Y") min_date
    · simp only [hv, if_true] at h
      cases hc : infosec_extract_article_content it with
      | error e => rw [hc] at h; exact absurd h (by simp)
      | ok content =>
        rw [hc] at h
        simp only [Except.ok.injEq, Option.some.injEq] at h
        subst h
        refine ⟨hv, ?_⟩
        rcases parse_date_str_shape s "%d %b %Y" with hs | ⟨d, _, hs⟩
        · exact Or.inl ⟨"No Date", hs⟩
        · exact Or.inr ⟨d, hs⟩
    · simp [hv] at h

/-- Every article the InfoSecurity per-page loop emits satisfies the
validity dichotomy: string date, or date at or after the cutoff. -/
theorem infosec_process_items_valid (min_date : Date) (items : List ISItem)
    (arts : List Article) (stop : Bool)
    (h : infosec_process_items min_date items = .ok (arts, stop)) :
    ∀ a ∈ arts, (∃ s, a.date = DateVal.str s) ∨
      (∃ d, a.date = DateVal.date d ∧ dateLe min_date d = true) := by
  induction items generalizing arts stop with
  | nil =>
    simp only [infosec_process_items, Except.ok.injEq, Prod.mk.injEq] at h
    rw [← h.1]
    intro a ha
    exact absurd ha (by simp)
  | cons it rest ih =>
    unfold infosec_process_items at h
    cases hdet : infosec_extract_article_details min_date it with
    | error e => rw [hdet] at h; exact absurd h (by simp)
    | ok od =>
      rw [hdet] at h
      cases od with
      | none =>
        simp only [Except.ok.injEq, Prod.mk.injEq] at h
        rw [← h.1]
        intro a ha
        exact absurd ha (by simp)
      | some a0 =>
        cases hrest : infosec_process_items min_date rest with
        | error e => rw [hrest] at h; exact absurd h (by simp)
        | ok p =>
          rw [hrest] at h
          simp only [Except.ok.injEq, Prod.mk.injEq] at h
          rw [← h.1]
          intro a ha
          rcases List.mem_cons.mp ha with rfl | hmem
          · obtain ⟨hvalid, hshape⟩ := infosec_details_valid min_date it a hdet
            rcases hshape with ⟨s, hs⟩ | ⟨d, hd⟩
            · exact Or.inl ⟨s, hs⟩
            · refine Or.inr ⟨d, hd, ?_⟩
              rw [hd] at hvalid
              exact hvalid
          · exact ih p.1 p.2 (by rw [hrest]) a hmem

/-- C1: every Article returned by the strict-stop InfoSecurity scrape
has a string date (the unknown marker) or a parsed date at or after the
configured cutoff; no article strictly older than the cutoff appears. -/
theorem c1_strict_stop_no_stale_article :
    ∀ (min_date : Date) (pages : List ISPage) (arts : List Article)
      (a : Article),
      infosec_scrape min_date pages = .ok arts → a ∈ arts →
      (∃ s, a.date = DateVal.str s) ∨
      (∃ d, a.date = DateVal.date d ∧ dateLe min_date d = true) := by
  intro min_date pages
  induction pages with
  | nil =>
    intro arts a h ha
    simp only [infosec_scrape, Except.ok.injEq] at h
    rw [← h] at ha
    exact absurd ha (by simp)
  | cons p rest ih =>
    intro arts a h ha
    cases p with
    | none =>
      simp only [infosec_scrape, Except.ok.injEq] at h
      rw [← h] at ha
      exact absurd ha (by simp)
    | some items =>
      cases items with
      | nil =>
        simp only [infosec_scrape, Except.ok.injEq] at h
        rw [← h] at ha
        exact absurd ha (by simp)
      | cons it its =>
        unfold infosec_scrape at h
        cases hp : infosec_process_items min_date (it :: its) with
        | error e => rw [hp] at h; exact absurd h (by simp)
        | ok pr =>
          obtain ⟨l, stop⟩ := pr
          rw [hp] at h
          cases stop with
          | true =>
            simp only [Except.ok.injEq] at h
            rw [← h] at ha
            exact infosec_process_items_valid min_date (it :: its) l true hp a ha
          | false =>
            cases hrec : infosec_scrape min_date rest with
            | error e => rw [hrec] at h; exact absurd h (by simp)
            | ok more =>
              rw [hrec] at h
              simp only [Except.ok.injEq] at h
              rw [← h] at ha
              rcases List.mem_append.mp ha with hmem | hmem
              · exact infosec_process_items_valid min_date (it :: its) l false hp a hmem
              · exact ih more a hrec hmem

/-- A concrete cutoff date used by the witnesses: 05-01-25. -/
def minDateW : Date := ⟨2025, 1, 5⟩

/-- A concrete fresh InfoSecurity listing item. -/
def isItemW : ISItem :=
  ⟨some "06 Jan 2025", "Title", "https://e/x", "desc", "img",
    FetchOutcome.response 200 "body", some ["hello"]⟩

/-- The article `isItemW` produces. -/
def artIS : Article :=
  ⟨"Title", "https://e/x", DateVal.date ⟨2025, 1, 6⟩, Tags.pynone,
    "InfoSecurity Magazine", some "desc", some "img", some "hello"⟩

theorem c1_strict_stop_no_stale_article_witness :
    (∃ s, artIS.date = DateVal.str s) ∨
    (∃ d, artIS.date = DateVal.date d ∧ dateLe minDateW d = true) :=
  c1_strict_stop_no_stale_article minDateW [some [isItemW]] [artIS] artIS
    (by decide) (by decide)

/-- A stale CISA container (date before the cutoff `minDateW`). -/
def cStale : CItem :=
  ⟨"Jan 01, 2024", "Old", "u1", "A|B", FetchOutcome.response 200 "x",
    some ["body"]⟩

/-- A fresh CISA container appearing after the stale one on the page. -/
def cFresh : CItem :=
  ⟨"Feb 01, 2025", "New", "u2", "C", FetchOutcome.response 200 "x",
    some ["body2"]⟩

/-- The article `cFresh` produces. -/
def artFresh : Article :=
  ⟨"New", "u2", DateVal.date ⟨2025, 2, 1⟩, Tags.ofList ["C"], "CISA",
    none, none, some "body2"⟩

/-- C3 counterexample: on a CISA page listing a stale article before a
fresh one, the per-page loop does not stop at the stale article — the
fresh article after it is still processed and returned. -/
theorem c3_counterexample_scans_past_stale :
    cisa_extract_article_details minDateW cStale = .ok none ∧
    cisa_scrape_page minDateW (FetchOutcome.response 200 "html")
      [cStale, cFresh] = .ok [artFresh] := by
  constructor
  · decide
  · decide

/-- C3 amended: in the cited controllers (CISA, Dragos) the per-page
loop skips an article that fails date validation and keeps scanning;
a stale article yields `None` from the detail extractor, and the loop
on `stale :: rest` equals the loop on `rest`. -/
theorem c3_amended_skip_stale_and_continue :
    (∀ (min_date : Date) (c : CItem) (cs : List CItem),
        cisa_extract_article_details min_date c = .ok none →
        cisa_process min_date (c :: cs) = cisa_process min_date cs) ∧
    (∀ (min_date : Date) (c : CItem),
        is_article_valid (parse_date_str c.dateText "%b %d, %Y") min_date = false →
        cisa_extract_article_details min_date c = .ok none) ∧
    (∀ (min_date : Date) (d : DItem) (ds : List DItem),
        dragos_extract_article_details min_date d = .ok none →
        dragos_process min_date (d :: ds) = dragos_process min_date ds) ∧
    (∀ (min_date : Date) (d : DItem),
        is_article_valid (parse_date_str d.dateText "%m.%d.%y") min_date = false →
        dragos_extract_article_details min_date d = .ok none) := by
  refine ⟨?_, ?_, ?_, ?_⟩
  · intro min_date c cs h
    simp [cisa_process, h]
  · intro min_date c h
    simp [cisa_extract_article_details, parse_date, h]
  · intro min_date d ds h
    simp [dragos_process, h]
  · intro min_date d h
    simp [dragos_extract_article_details, h]

/-- A stale Dragos listing article. -/
def dStale : DItem :=
  ⟨"01.01.24", "dOld", "du1", "No tags", some "background:url(x.png)",
    some ["t"]⟩

theorem c3_amended_skip_stale_and_continue_witness :
    cisa_process minDateW [cStale, cFresh] = cisa_process minDateW [cFresh] ∧
    dragos_process minDateW [dStale] = dragos_process minDateW [] :=
  ⟨c3_amended_skip_stale_and_continue.1 minDateW cStale [cFresh] (by decide),
   c3_amended_skip_stale_and_continue.2.2.1 minDateW dStale [] (by decide)⟩

end Scraper
